import Mathlib

/- Verification of the guidellm core (sjmonson fork) against its
   natural-language specification.  Shallow embedding of:
     - the streaming backend (src/guidellm/backend/aiohttp.py, make_request),
     - the per-request worker timing ledger and the scheduler counter state
       machine (src/guidellm/scheduler/scheduler.py),
     - the process-pool sizing arithmetic (Scheduler._start_processes),
     - the file request generator (src/guidellm/request/file.py).
   Python integers are modelled as Int/Nat, wall-clock floats as rationals,
   float infinities as explicit Option values, and fallible code as Except. -/

namespace Guidellm

/-! ## Streaming backend (AiohttpBackend.make_request)

A Server-Sent-Events chunk, after line framing and stripping the data
prefix, is either the terminator [DONE] or a parsed JSON object from which
the code reads choices[0].delta.content (an optional string, default None
via deepget) and usage.completion_tokens (an optional integer). -/

inductive SSEChunk where
  | done : SSEChunk
  | data (text : Option String) (usage : Option Int) : SSEChunk
deriving DecidableEq

/-- One GenerativeResponse as yielded by make_request: type_ is either
the string for a token iteration event or the final summary event. -/
structure GenerativeResponse where
  type_ : String
  addToken : Option String := none
  prompt : String
  outputTokenCount : Int
  promptTokenCount : Option Int
deriving DecidableEq

/-- Token delta for a chunk: usage.completion_tokens minus the running
total when usage is present, else 1 (aiohttp.py lines 164-168). -/
def tokenDelta (totalUsage : Int) (usage : Option Int) : Int :=
  match usage with
  | some u => u - totalUsage
  | none => 1

/-- Events yielded for one chunk together with the updated running total
(aiohttp.py lines 146-186).  On [DONE] the final event carries the running
total; a data chunk with delta < 1 is dropped; otherwise the loop body
increments the total once per yielded token event, so the i-th of the
delta-many events carries total + i + 1. -/
def processChunk (prompt : String) (ptc : Option Int) (totalUsage : Int) :
    SSEChunk → List GenerativeResponse × Int
  | .done =>
      ([{ type_ := "final", prompt := prompt, outputTokenCount := totalUsage,
          promptTokenCount := ptc }], totalUsage)
  | .data text usage =>
      let count := tokenDelta totalUsage usage
      if count < 1 then
        ([], totalUsage)
      else
        ((List.range count.toNat).map fun i : Nat =>
          { type_ := "token_iter", addToken := text, prompt := prompt,
            outputTokenCount := totalUsage + (i : Int) + 1, promptTokenCount := ptc },
         totalUsage + count)

/-- The async-for over response.content: fold processChunk over the chunk
list, threading the running total (initially 0). -/
def processChunks (prompt : String) (ptc : Option Int) :
    Int → List SSEChunk → List GenerativeResponse × Int
  | t, [] => ([], t)
  | t, c :: cs =>
      let r := processChunk prompt ptc t c
      let rest := processChunks prompt ptc r.2 cs
      (r.1 ++ rest.1, rest.2)

/-- AiohttpBackend.make_request: a non-200 HTTP status consumes the body
as the error message and raises before any chunk is read (aiohttp.py lines
134-138); otherwise the SSE chunks are streamed into events. -/
def makeRequest (status : Nat) (body : String) (prompt : String)
    (ptc : Option Int) (chunks : List SSEChunk) :
    Except String (List GenerativeResponse) :=
  if status ≠ 200 then
    Except.error ("Failed to generate response: " ++ body)
  else
    Except.ok (processChunks prompt ptc 0 chunks).1

def isTokenIter (e : GenerativeResponse) : Bool := e.type_ == "token_iter"

/-! ## Worker pool sizing (Scheduler._start_processes, scheduler.py 425-439)

The per-process cap is computed with Python floor division (line 433); the
async worker process then installs a semaphore only when the cap is truthy,
that is nonzero (line 535): Semaphore(max_concurrency) if max_concurrency
else None, where None means no per-process concurrency limit at all. -/

/-- Floor-division per-process request cap (scheduler.py line 433). -/
def numProcessingRequestsPerProcess (totalInFlight processes : Nat) : Nat :=
  totalInFlight / processes

/-- The semaphore installed by Scheduler._worker_process_async (line 535):
some cap when the computed cap is nonzero, none when it is zero. -/
def asyncWorkerSemaphore (maxConcurrency : Nat) : Option Nat :=
  if maxConcurrency = 0 then none else some maxConcurrency

/-- Effective per-process concurrency cap of an async worker process. -/
def perProcessCap (totalInFlight processes : Nat) : Option Nat :=
  asyncWorkerSemaphore (numProcessingRequestsPerProcess totalInFlight processes)

/-! ## File request generator (src/guidellm/request/file.py)

A line of the data file either parses to an entry (a JSON object carrying
the four required keys) or is skipped, either on a JSON decode error or on
a missing key; the parse outcome of a line is modelled as an Option FileEntry.
The constructor reads all lines, drops the first (metadata) line, and
keeps the entries of the lines that parse (file.py lines 42-70). -/

structure FileEntry where
  text : String
  inputId : Int
  inputTokens : Int
  outputTokens : Int
deriving DecidableEq

structure TextGenerationRequest where
  prompt : String
  promptTokenCount : Option Int
  outputTokenCount : Option Int
deriving DecidableEq

/-- Parsed data list built by FileRequestGenerator constructor. -/
def fileData (lines : List (Option FileEntry)) : List FileEntry :=
  (lines.drop 1).filterMap id

/-- Generator state: the parsed data plus the position of its iterator
(self._iterator = iter(self._data), advanced by next). -/
structure FileRequestGenerator where
  data : List FileEntry
  pos : Nat
deriving DecidableEq

def FileRequestGenerator.init (lines : List (Option FileEntry)) :
    FileRequestGenerator :=
  { data := fileData lines, pos := 0 }

/-- The __len__ method (file.py lines 84-89): the count of parsed entries. -/
def FileRequestGenerator.lengthOf (g : FileRequestGenerator) : Nat :=
  g.data.length

/-- The TextGenerationRequest built from one data entry (file.py 106-110). -/
def FileEntry.toRequest (e : FileEntry) : TextGenerationRequest :=
  { prompt := e.text, promptTokenCount := some e.inputTokens,
    outputTokenCount := some e.outputTokens }

/-- The create_item method (file.py lines 91-113): take the next entry from
the iterator; on StopIteration restart the iterator from the beginning and
take again, so that a second StopIteration (empty data) escapes to the
caller, modelled as Except.error. -/
def FileRequestGenerator.createItem (g : FileRequestGenerator) :
    Except Unit (TextGenerationRequest × FileRequestGenerator) :=
  match g.data[g.pos]? with
  | some e => Except.ok (e.toRequest, { data := g.data, pos := g.pos + 1 })
  | none =>
      match g.data[0]? with
      | some e => Except.ok (e.toRequest, { data := g.data, pos := 1 })
      | none => Except.error ()

/-- Result of the i-th call to create_item (0-indexed), threading the
iterator state from call to call. -/
def FileRequestGenerator.callN (g : FileRequestGenerator) :
    Nat → Except Unit (TextGenerationRequest × FileRequestGenerator)
  | 0 => g.createItem
  | n + 1 =>
      match g.createItem with
      | Except.ok pr => pr.2.callN n
      | Except.error e => Except.error e

/-- Entry at index n modulo the (positive) length of the data list. -/
def cyclicGet (d : List FileEntry) (hd : d ≠ []) (n : Nat) : FileEntry :=
  d.get ⟨n % d.length, Nat.mod_lt n (List.length_pos.mpr hd)⟩

/-- Concrete file contents used for the C10 witness: a metadata line, two
valid data lines and one malformed line. -/
def sampleLines : List (Option FileEntry) :=
  [none, some ⟨"q1", 0, 2, 3⟩, none, some ⟨"q2", 1, 5, 7⟩]

/-! ## Worker timing (Scheduler._worker_schedule_request, scheduler.py 582-632)

Wall-clock reads are modelled by a clock function: clock k is the value of
the k-th time.time() call of the run.  The wall clock is assumed
non-decreasing (Monotone clock), and asyncio.sleep(d) is assumed to
suspend for at least d seconds; both assumptions appear as explicit
hypotheses of the timing theorems. -/

/-- A scheduling timestamp: the synchronous strategies hand out negative
infinity as the target start time, the asynchronous ones finite floats. -/
inductive TimeVal where
  | negInf : TimeVal
  | fin (t : ℚ) : TimeVal
deriving DecidableEq

/-- The timing ledger of one request (SchedulerRequestInfo, scheduler.py
lines 109-130); -1 is the sentinel for a field that is not yet set. -/
structure SchedulerRequestInfo where
  targetedStartTime : TimeVal
  queuedTime : ℚ
  scheduledTime : ℚ
  workerStart : ℚ
  workerEnd : ℚ
  processId : Int
deriving DecidableEq

/-- One message put on the results queue by a worker, carrying the ledger
snapshot taken at put time (the manager queue pickles its argument). -/
structure WorkerMsg where
  type_ : String
  info : SchedulerRequestInfo
deriving DecidableEq

/-- Whether the pre-dispatch wait is positive (scheduler.py line 609):
wait_time = start_time - time.time() with float semantics, so a negative
infinity target never sleeps. -/
def waitPos (target : TimeVal) (now : ℚ) : Bool :=
  match target with
  | .negInf => false
  | .fin t => decide (now < t)

/-- Scheduler._worker_schedule_request: sample scheduled_time at clock n,
post request_scheduled; compute the wait at clock (n+1) and sleep only if
it is positive; sample worker_start at clock (n+2), post request_start;
resolve; sample worker_end at clock (n+3), post request_complete.  The
Boolean records whether the cooperative sleep was taken. -/
def workerScheduleRequest (clock : Nat → ℚ) (n : Nat) (queuedTime : ℚ)
    (target : TimeVal) (pid : Int) : List WorkerMsg × Bool :=
  let info1 : SchedulerRequestInfo :=
    { targetedStartTime := target, queuedTime := queuedTime,
      scheduledTime := clock n, workerStart := -1, workerEnd := -1,
      processId := pid }
  let slept := waitPos target (clock (n + 1))
  let info2 : SchedulerRequestInfo := { info1 with workerStart := clock (n + 2) }
  let info3 : SchedulerRequestInfo := { info2 with workerEnd := clock (n + 3) }
  ([⟨"request_scheduled", info1⟩, ⟨"request_start", info2⟩,
    ⟨"request_complete", info3⟩], slept)

/-- Clock used by the C8 witness: sample 2 (worker_start) comes after the
sleep, far enough for the sleep-soundness hypothesis to hold. -/
def witnessClock : Nat → ℚ := fun k => (k : ℚ) * 100

/-! ## Scheduler run loop (Scheduler.run, scheduler.py 258-412)

The producer/consumer loop and the worker pool are modelled as a small-step
transition system.  Each created request is tracked as a pair
(posted, received): posted counts the responses its worker has put on the
responses queue (0 while the envelope is still on the requests queue,
1 after request_scheduled, 2 after request_start, 3 after
request_complete); received counts those the scheduler loop has consumed.
The manager responses queue is FIFO and a worker posts the three responses of a given request in program order, so the scheduler receives the responses of each request in order: the model lets the scheduler consume any pending
response whose request still has received < posted, which covers every
real delivery order.  Counter updates are copied verbatim from
Scheduler.run lines 321-322 and 331-353. -/

/-- Static parameters of one run as computed by _run_setup and
_start_processes: the lazy timestamp sequence of the strategy, end_time (none
is +inf, no max_duration), end_number (none is +inf) and the bounded
requests queue capacity. -/
structure RunParams where
  times : Nat → TimeVal
  endTime : Option ℚ
  endNumber : Option Int
  queueLimit : Nat

/-- Python comparison queued_requests >= end_number where end_number may be
+inf (none): always false against infinity. -/
def geEndNumber (q : Int) (endNumber : Option Int) : Bool :=
  match endNumber with
  | none => false
  | some n => decide (n ≤ q)

/-- Python comparison request_time >= end_time where the time may be -inf
and end_time may be +inf. -/
def geEndTime (t : TimeVal) (endTime : Option ℚ) : Bool :=
  match t, endTime with
  | _, none => false
  | .negInf, some _ => false
  | .fin x, some e => decide (e ≤ x)

/-- State of one scheduler run: the RunInfo counters (Python integers),
the multiset of created requests tagged (posted, received), the number of
requests left in the loader, the position in the timestamp sequence, and
whether the producer has marked its iterator exhausted
(requests_iter is None). -/
structure SchedState where
  createdRequests : Int
  queuedRequests : Int
  scheduledRequests : Int
  processingRequests : Int
  completedRequests : Int
  reqs : Multiset (Nat × Nat)
  loaderRemaining : Nat
  timesIdx : Nat
  exhausted : Bool
deriving DecidableEq

/-- Number of envelopes sitting on the bounded requests queue. -/
def queueLen (s : SchedState) : Nat :=
  Multiset.countP (fun r => r.1 = 0) s.reqs

/-- Number of created requests whose received-response count is k. -/
def recvCount (s : SchedState) (k : Nat) : Nat :=
  Multiset.countP (fun r => r.2 = k) s.reqs

/-- The StopIteration condition of the producer branch (scheduler.py lines
306-312): the next target time is read, then the iterator is marked
exhausted if queued_requests >= end_number, or the target time >= end_time,
or the request loader itself is exhausted. -/
def stopCond (P : RunParams) (s : SchedState) : Bool :=
  geEndNumber s.queuedRequests P.endNumber
    || geEndTime (P.times s.timesIdx) P.endTime
    || decide (s.loaderRemaining = 0)

/-- One transition of the scheduler run.  The producer acts only when the
iterator is not exhausted and the bounded queue is not full (lines
301-324); enqueue increments created_requests and queued_requests
together; each consumed response applies exactly one of the three
counter transfers (lines 331-353); worker transitions move a request
through its pipeline and post the corresponding response. -/
inductive Step (P : RunParams) : SchedState → SchedState → Prop where
  | exhaust {s : SchedState}
      (hactive : s.exhausted = false)
      (hroom : queueLen s < P.queueLimit)
      (hstop : stopCond P s = true) :
      Step P s { s with exhausted := true, timesIdx := s.timesIdx + 1 }
  | enqueue {s : SchedState}
      (hactive : s.exhausted = false)
      (hroom : queueLen s < P.queueLimit)
      (hgo : stopCond P s = false) :
      Step P s { s with
        createdRequests := s.createdRequests + 1,
        queuedRequests := s.queuedRequests + 1,
        reqs := (0, 0) ::ₘ s.reqs,
        loaderRemaining := s.loaderRemaining - 1,
        timesIdx := s.timesIdx + 1 }
  | workerDequeue {s : SchedState}
      (hmem : ((0 : Nat), (0 : Nat)) ∈ s.reqs) :
      Step P s { s with reqs := (1, 0) ::ₘ s.reqs.erase (0, 0) }
  | workerStart (rcv : Nat) {s : SchedState}
      (hmem : ((1 : Nat), rcv) ∈ s.reqs) :
      Step P s { s with reqs := (2, rcv) ::ₘ s.reqs.erase (1, rcv) }
  | workerComplete (rcv : Nat) {s : SchedState}
      (hmem : ((2 : Nat), rcv) ∈ s.reqs) :
      Step P s { s with reqs := (3, rcv) ::ₘ s.reqs.erase (2, rcv) }
  | receiveScheduled (p : Nat) {s : SchedState}
      (hmem : (p, (0 : Nat)) ∈ s.reqs) (hlt : 0 < p) :
      Step P s { s with
        queuedRequests := s.queuedRequests - 1,
        scheduledRequests := s.scheduledRequests + 1,
        reqs := (p, 1) ::ₘ s.reqs.erase (p, 0) }
  | receiveStart (p : Nat) {s : SchedState}
      (hmem : (p, (1 : Nat)) ∈ s.reqs) (hlt : 1 < p) :
      Step P s { s with
        scheduledRequests := s.scheduledRequests - 1,
        processingRequests := s.processingRequests + 1,
        reqs := (p, 2) ::ₘ s.reqs.erase (p, 1) }
  | receiveComplete (p : Nat) {s : SchedState}
      (hmem : (p, (2 : Nat)) ∈ s.reqs) (hlt : 2 < p) :
      Step P s { s with
        processingRequests := s.processingRequests - 1,
        completedRequests := s.completedRequests + 1,
        reqs := (p, 3) ::ₘ s.reqs.erase (p, 2) }

/-- Initial state right after run_start is emitted: all counters zero, no
requests created, loader untouched. -/
def initState (loaderLen : Nat) : SchedState :=
  { createdRequests := 0, queuedRequests := 0, scheduledRequests := 0,
    processingRequests := 0, completedRequests := 0, reqs := 0,
    loaderRemaining := loaderLen, timesIdx := 0, exhausted := false }

/-- Reachability of a state in one run. -/
def Reach (P : RunParams) (loaderLen : Nat) (s : SchedState) : Prop :=
  Relation.ReflTransGen (Step P) (initState loaderLen) s

/-- The break condition of the main loop (scheduler.py lines 292-299):
requests_iter is None and completed_requests >= created_requests; the
run_complete event is emitted right after the loop breaks. -/
def exitCond (s : SchedState) : Prop :=
  s.exhausted = true ∧ s.createdRequests ≤ s.completedRequests

/-- Inductive invariant tying the RunInfo counters to the pipeline: each
counter equals the number of requests with the matching received-response
count, created_requests equals the total number of tracked requests, and
every tracked request satisfies received ≤ posted ≤ 3. -/
def Inv (s : SchedState) : Prop :=
  s.createdRequests = (Multiset.card s.reqs : Int) ∧
  s.queuedRequests = (recvCount s 0 : Int) ∧
  s.scheduledRequests = (recvCount s 1 : Int) ∧
  s.processingRequests = (recvCount s 2 : Int) ∧
  s.completedRequests = (recvCount s 3 : Int) ∧
  ∀ r ∈ s.reqs, r.2 ≤ r.1 ∧ r.1 ≤ 3

/-- Run parameters for the concrete C1 trace: max_number = 2 (so
end_number = 2 against a loader of 3), no max_duration, a finite constant
timestamp sequence, queue capacity 10. -/
def sampleParams : RunParams :=
  { times := fun _ => TimeVal.fin 0, endTime := none, endNumber := some 2,
    queueLimit := 10 }

lemma processChunk_total (prompt : String) (ptc : Option Int) (t : Int)
    (c : SSEChunk) :
    (processChunk prompt ptc t c).2 =
      t + ((processChunk prompt ptc t c).1.countP isTokenIter : Int) := by
  cases c with
  | done => simp [processChunk, isTokenIter]
  | data text usage =>
      by_cases h : tokenDelta t usage < 1
      · simp [processChunk, h]
      · push_neg at h
        simp only [processChunk, if_neg (not_lt.mpr h)]
        have hall : ∀ e ∈ (List.range (tokenDelta t usage).toNat).map
            (fun i : Nat => ({ type_ := "token_iter",
                               addToken := text,
                               prompt := prompt,
                               outputTokenCount := t + (i : Int) + 1,
                               promptTokenCount := ptc } : GenerativeResponse)),
            isTokenIter e = true := by
          intro e he
          rcases List.mem_map.mp he with ⟨i, _, rfl⟩
          rfl
        rw [List.countP_eq_length.mpr hall, List.length_map, List.length_range,
          Int.toNat_of_nonneg (le_trans (by norm_num) h)]

lemma processChunks_total (prompt : String) (ptc : Option Int) :
    ∀ (cs : List SSEChunk) (t : Int),
      (processChunks prompt ptc t cs).2 =
        t + ((processChunks prompt ptc t cs).1.countP isTokenIter : Int) := by
  intro cs
  induction cs with
  | nil => intro t; simp [processChunks]
  | cons c cs ih =>
      intro t
      simp only [processChunks, List.countP_append]
      rw [ih]
      have := processChunk_total prompt ptc t c
      push_cast
      omega

lemma processChunks_append (prompt : String) (ptc : Option Int) :
    ∀ (xs ys : List SSEChunk) (t : Int),
      processChunks prompt ptc t (xs ++ ys) =
        ((processChunks prompt ptc t xs).1 ++
          (processChunks prompt ptc (processChunks prompt ptc t xs).2 ys).1,
         (processChunks prompt ptc (processChunks prompt ptc t xs).2 ys).2) := by
  intro xs
  induction xs with
  | nil => intro ys t; simp [processChunks]
  | cons c cs ih =>
      intro ys t
      simp only [List.cons_append, processChunks, List.append_eq]
      rw [ih]
      simp

lemma processChunks_no_done_all_iter (prompt : String) (ptc : Option Int) :
    ∀ (cs : List SSEChunk), SSEChunk.done ∉ cs →
      ∀ (t : Int), ∀ e ∈ (processChunks prompt ptc t cs).1,
        e.type_ = "token_iter" := by
  intro cs
  induction cs with
  | nil => intro _ t e he; simp [processChunks] at he
  | cons c cs ih =>
      intro hnd t e he
      simp only [processChunks, List.mem_append] at he
      rcases he with he | he
      · cases c with
        | done => exact absurd (List.mem_cons_self SSEChunk.done cs) hnd
        | data text usage =>
            by_cases h : tokenDelta t usage < 1
            · simp [processChunk, h] at he
            · simp only [processChunk, if_neg h] at he
              rcases List.mem_map.mp he with ⟨i, _, rfl⟩
              rfl
      · exact ih (fun hm => hnd (List.mem_cons_of_mem _ hm)) _ e he

/-- C5: for every well-formed SSE stream ending in the [DONE] terminator,
the events yielded by make_request are some token_iter events followed by
exactly one final event whose output_token_count equals the number of
token_iter events; moreover each data chunk whose delta d is at least 1
fans out into exactly d token_iter events all sharing the text
fragment of that chunk, and the running total increases by exactly d. -/
theorem c5_iter_count_matches_final_usage (prompt : String) (ptc : Option Int)
    (ds : List SSEChunk) (hnd : SSEChunk.done ∉ ds) :
    (∃ iters fin,
      (processChunks prompt ptc 0 (ds ++ [SSEChunk.done])).1 = iters ++ [fin] ∧
      (∀ e ∈ iters, e.type_ = "token_iter") ∧
      fin.type_ = "final" ∧
      fin.outputTokenCount = (iters.length : Int)) ∧
    (∀ (text : Option String) (usage : Option Int) (t : Int),
      1 ≤ tokenDelta t usage →
        (processChunk prompt ptc t (SSEChunk.data text usage)).1.length
            = (tokenDelta t usage).toNat ∧
        (∀ e ∈ (processChunk prompt ptc t (SSEChunk.data text usage)).1,
          e.type_ = "token_iter" ∧ e.addToken = text) ∧
        (processChunk prompt ptc t (SSEChunk.data text usage)).2
            = t + tokenDelta t usage) := by
  constructor
  · refine ⟨(processChunks prompt ptc 0 ds).1,
      ⟨"final", none, prompt, (processChunks prompt ptc 0 ds).2, ptc⟩,
      ?_, ?_, rfl, ?_⟩
    · rw [processChunks_append]
      simp [processChunks, processChunk]
    · exact processChunks_no_done_all_iter prompt ptc ds hnd 0
    · have h1 := processChunks_total prompt ptc ds 0
      have h2 : List.countP isTokenIter (processChunks prompt ptc 0 ds).1
          = (processChunks prompt ptc 0 ds).1.length :=
        List.countP_eq_length.mpr (by
          intro e he
          have he2 := processChunks_no_done_all_iter prompt ptc ds hnd 0 e he
          simp [isTokenIter, he2])
      show (processChunks prompt ptc 0 ds).2 = _
      rw [h1, h2]
      simp
  · intro text usage t ht
    have hpos : ¬ tokenDelta t usage < 1 := not_lt.mpr ht
    refine ⟨?_, ?_, ?_⟩
    · simp [processChunk, hpos]
    · intro e he
      simp only [processChunk, if_neg hpos] at he
      rcases List.mem_map.mp he with ⟨i, _, rfl⟩
      exact ⟨rfl, rfl⟩
    · simp [processChunk, hpos]

theorem c5_witness :
    ∃ iters fin,
      (processChunks ("p") none 0
          ([SSEChunk.data (some ("ab")) (some 2), SSEChunk.data (some ("c")) none]
            ++ [SSEChunk.done])).1 = iters ++ [fin] ∧
      (∀ e ∈ iters, e.type_ = "token_iter") ∧
      fin.type_ = "final" ∧
      fin.outputTokenCount = (iters.length : Int) :=
  (c5_iter_count_matches_final_usage ("p") none
    [SSEChunk.data (some ("ab")) (some 2), SSEChunk.data (some ("c")) none]
    (by decide)).1

/-- C6: a chunk whose computed token delta at the current running total is
below 1 contributes no events and leaves the running total unchanged, so
dropping it leaves the event stream of the whole run, and in particular the
final output_token_count, unchanged. -/
theorem c6_drop_low_delta_chunk (prompt : String) (ptc : Option Int)
    (cs1 cs2 : List SSEChunk) (text : Option String) (usage : Option Int)
    (hdelta : tokenDelta (processChunks prompt ptc 0 cs1).2 usage < 1) :
    processChunk prompt ptc (processChunks prompt ptc 0 cs1).2
        (SSEChunk.data text usage)
      = ([], (processChunks prompt ptc 0 cs1).2) ∧
    processChunks prompt ptc 0 (cs1 ++ SSEChunk.data text usage :: cs2)
      = processChunks prompt ptc 0 (cs1 ++ cs2) := by
  have h1 : processChunk prompt ptc (processChunks prompt ptc 0 cs1).2
      (SSEChunk.data text usage) = ([], (processChunks prompt ptc 0 cs1).2) := by
    simp [processChunk, hdelta]
  refine ⟨h1, ?_⟩
  rw [processChunks_append, processChunks_append]
  simp [processChunks, h1]

theorem c6_witness :
    processChunks ("p") none 0
        ([SSEChunk.data (some ("a")) (some 3)]
          ++ SSEChunk.data (some ("b")) (some 2) :: [SSEChunk.done])
      = processChunks ("p") none 0
          ([SSEChunk.data (some ("a")) (some 3)] ++ [SSEChunk.done]) :=
  (c6_drop_low_delta_chunk ("p") none [SSEChunk.data (some ("a")) (some 3)]
    [SSEChunk.done] (some ("b")) (some 2) (by decide)).2

/-- C9 counterexample: HTTP status 201 is a 2xx status, yet make_request
fails on it, because the code checks status != 200 rather than non-2xx
(aiohttp.py line 135). -/
theorem c9_counterexample :
    (200 ≤ 201 ∧ 201 < 300) ∧
    makeRequest 201 ("oops") ("p") none []
      = Except.error ("Failed to generate response: oops") :=
  ⟨by decide, rfl⟩

/-- C9 amended: make_request fails, consuming the response body as the
error message and yielding no events, exactly when the HTTP status is not
200; on status 200 it does not fail on account of the status code. -/
theorem c9_amended_status_check (status : Nat) (body prompt : String)
    (ptc : Option Int) (chunks : List SSEChunk) :
    (status ≠ 200 → makeRequest status body prompt ptc chunks
        = Except.error ("Failed to generate response: " ++ body)) ∧
    (status = 200 → makeRequest status body prompt ptc chunks
        = Except.ok (processChunks prompt ptc 0 chunks).1) := by
  constructor
  · intro h; simp [makeRequest, h]
  · intro h; simp [makeRequest, h]

theorem c9_amended_witness :
    makeRequest 503 ("err") ("p") none []
      = Except.error ("Failed to generate response: " ++ "err") :=
  (c9_amended_status_check 503 ("err") ("p") none []).1 (by decide)

/-- C4 counterexample: with total in-flight limit 3 and 2 processes the
claimed cap is the ceiling (3 + 2 - 1) / 2 = 2, but the code computes
floor division 3 // 2 = 1; and with total 1 and 2 processes the claimed
cap is at least 1, but the computed cap 0 is falsy, so no semaphore is
installed at all. -/
theorem c4_counterexample :
    ((3 + 2 - 1) / 2 = 2 ∧ perProcessCap 3 2 = some 1 ∧
      perProcessCap 3 2 ≠ some ((3 + 2 - 1) / 2)) ∧
    perProcessCap 1 2 = none := by
  decide

/-- C4 amended: in async mode each worker process caps its concurrent
in-flight resolve calls at floor(total / processes) whenever
total >= processes, and that cap is at least 1; when total < processes the
computed cap is 0, which is falsy, so no semaphore is installed and the
per-process in-flight count is uncapped. -/
theorem c4_amended_floor_cap (total processes : Nat) (hp : 0 < processes) :
    (processes ≤ total →
      perProcessCap total processes = some (total / processes) ∧
      1 ≤ total / processes) ∧
    (total < processes → perProcessCap total processes = none) := by
  constructor
  · intro h
    have h1 : 1 ≤ total / processes := (Nat.one_le_div_iff hp).mpr h
    have h2 : total / processes ≠ 0 := by omega
    exact ⟨by simp [perProcessCap, asyncWorkerSemaphore,
      numProcessingRequestsPerProcess, h2], h1⟩
  · intro h
    simp [perProcessCap, asyncWorkerSemaphore, numProcessingRequestsPerProcess,
      Nat.div_eq_of_lt h]

theorem c4_amended_witness :
    perProcessCap 8 3 = some (8 / 3) ∧ 1 ≤ 8 / 3 :=
  (c4_amended_floor_cap 8 3 (by decide)).1 (by decide)

lemma cyclicGet_mod_eq (d : List FileEntry) (hd : d ≠ []) {a b : Nat}
    (h : a % d.length = b % d.length) : cyclicGet d hd a = cyclicGet d hd b := by
  unfold cyclicGet
  congr 1
  exact Fin.ext h

lemma createItem_cycles (d : List FileEntry) (p : Nat) (hd : d ≠ [])
    (hp : p ≤ d.length) :
    FileRequestGenerator.createItem ⟨d, p⟩
      = Except.ok ((cyclicGet d hd p).toRequest, ⟨d, p % d.length + 1⟩) := by
  have hlen : 0 < d.length := List.length_pos.mpr hd
  rcases lt_or_eq_of_le hp with h | h
  · have hsome : d[p]? = some d[p] := List.getElem?_eq_getElem h
    have hmod : p % d.length = p := Nat.mod_eq_of_lt h
    simp [FileRequestGenerator.createItem, hsome, cyclicGet, hmod]
  · have hnone : d[p]? = none := by
      rw [h]
      exact List.getElem?_eq_none (le_refl _)
    have h0 : d[0]? = some d[0] := List.getElem?_eq_getElem hlen
    have hmod : p % d.length = 0 := by rw [h]; exact Nat.mod_self _
    simp [FileRequestGenerator.createItem, hnone, h0, cyclicGet, hmod]

lemma callN_cycles (d : List FileEntry) (hd : d ≠ []) :
    ∀ (i p : Nat), p ≤ d.length →
      FileRequestGenerator.callN ⟨d, p⟩ i
        = Except.ok ((cyclicGet d hd (p + i)).toRequest,
            ⟨d, (p + i) % d.length + 1⟩) := by
  intro i
  induction i with
  | zero =>
      intro p hp
      simpa [FileRequestGenerator.callN] using createItem_cycles d p hd hp
  | succ i ih =>
      intro p hp
      have hlen : 0 < d.length := List.length_pos.mpr hd
      have hmlt : p % d.length + 1 ≤ d.length := Nat.mod_lt p hlen
      have hstep := createItem_cycles d p hd hp
      have hrec := ih (p % d.length + 1) hmlt
      have hidx : (p % d.length + 1 + i) % d.length
          = (p + (i + 1)) % d.length := by
        rw [Nat.add_assoc, Nat.mod_add_mod, Nat.add_comm 1 i]
      have hcg : cyclicGet d hd (p % d.length + 1 + i)
          = cyclicGet d hd (p + (i + 1)) := cyclicGet_mod_eq d hd hidx
      simp only [FileRequestGenerator.callN, hstep]
      rw [hrec, hcg, hidx]

/-- C10: for a FileRequestGenerator, __len__ returns the number of parsed
entries; when the file yields no valid data line create_item raises
StopIteration; and when there is at least one valid data line create_item
never raises and its i-th call (0-indexed) returns the request built from
entry i mod len(data), cycling through the entries in order forever. -/
theorem c10_file_generator_cycles (lines : List (Option FileEntry)) :
    FileRequestGenerator.lengthOf (FileRequestGenerator.init lines)
        = (fileData lines).length ∧
    (fileData lines = [] →
      (FileRequestGenerator.init lines).createItem = Except.error ()) ∧
    ∀ hd : fileData lines ≠ [], ∀ i : Nat,
      (FileRequestGenerator.init lines).callN i
        = Except.ok ((cyclicGet (fileData lines) hd i).toRequest,
            ⟨fileData lines, i % (fileData lines).length + 1⟩) := by
  refine ⟨rfl, ?_, ?_⟩
  · intro h
    simp [FileRequestGenerator.init, FileRequestGenerator.createItem, h]
  · intro hd i
    have h := callN_cycles (fileData lines) hd i 0 (Nat.zero_le _)
    simpa [FileRequestGenerator.init] using h

theorem c10_witness :
    FileRequestGenerator.callN (FileRequestGenerator.init sampleLines) 5
      = Except.ok (⟨"q2", some 5, some 7⟩,
          ⟨[⟨"q1", 0, 2, 3⟩, ⟨"q2", 1, 5, 7⟩], 2⟩) :=
  ((c10_file_generator_cycles sampleLines).2.2 (by decide) 5).trans rfl

lemma witnessClock_mono : Monotone witnessClock := by
  intro a b hab
  unfold witnessClock
  have h : (a : ℚ) ≤ (b : ℚ) := by exact_mod_cast hab
  linarith

/-- C7: with a non-decreasing wall clock and the producer queued_time
sampled at or before the worker pickup sample, the three messages posted
for a request carry a ledger satisfying queued_time ≤ scheduled_time ≤
worker_start ≤ worker_end on completion, and each field, once set from its
-1 sentinel, is carried unchanged into every later snapshot, while the
not-yet-set fields of the earlier snapshots still show the -1 sentinel. -/
theorem c7_timing_ledger (clock : Nat → ℚ) (hmono : Monotone clock)
    (n m : Nat) (hm : m ≤ n) (target : TimeVal) (pid : Int) :
    ∃ i1 i2 i3,
      (workerScheduleRequest clock n (clock m) target pid).1
        = [⟨"request_scheduled", i1⟩, ⟨"request_start", i2⟩,
           ⟨"request_complete", i3⟩] ∧
      (i3.queuedTime ≤ i3.scheduledTime ∧ i3.scheduledTime ≤ i3.workerStart ∧
        i3.workerStart ≤ i3.workerEnd) ∧
      (i1.workerStart = -1 ∧ i1.workerEnd = -1 ∧ i2.workerEnd = -1) ∧
      (i2.targetedStartTime = i1.targetedStartTime ∧
        i2.queuedTime = i1.queuedTime ∧ i2.scheduledTime = i1.scheduledTime ∧
        i3.targetedStartTime = i2.targetedStartTime ∧
        i3.queuedTime = i2.queuedTime ∧ i3.scheduledTime = i2.scheduledTime ∧
        i3.workerStart = i2.workerStart) := by
  refine ⟨_, _, _, rfl, ?_, ?_, ?_⟩
  · exact ⟨hmono hm, hmono (by omega), hmono (by omega)⟩
  · exact ⟨rfl, rfl, rfl⟩
  · exact ⟨rfl, rfl, rfl, rfl, rfl, rfl, rfl⟩

theorem c7_witness :
    ∃ i1 i2 i3,
      (workerScheduleRequest witnessClock 1 (witnessClock 0)
          (TimeVal.fin 150) 0).1
        = [⟨"request_scheduled", i1⟩, ⟨"request_start", i2⟩,
           ⟨"request_complete", i3⟩] ∧
      (i3.queuedTime ≤ i3.scheduledTime ∧ i3.scheduledTime ≤ i3.workerStart ∧
        i3.workerStart ≤ i3.workerEnd) ∧
      (i1.workerStart = -1 ∧ i1.workerEnd = -1 ∧ i2.workerEnd = -1) ∧
      (i2.targetedStartTime = i1.targetedStartTime ∧
        i2.queuedTime = i1.queuedTime ∧ i2.scheduledTime = i1.scheduledTime ∧
        i3.targetedStartTime = i2.targetedStartTime ∧
        i3.queuedTime = i2.queuedTime ∧ i3.scheduledTime = i2.scheduledTime ∧
        i3.workerStart = i2.workerStart) :=
  c7_timing_ledger witnessClock witnessClock_mono 1 0 (by omega)
    (TimeVal.fin 150) 0

/-- C8: under a non-decreasing wall clock, and assuming asyncio.sleep(d)
suspends for at least d, the request_start message of a request with a
finite target start time t carries worker_start ≥ t (so worker_start ≥
t - ε for every ε ≥ 0); and no sleep is taken when the target is negative
infinity or already past at the wait computation. -/
theorem c8_worker_start_not_early (clock : Nat → ℚ) (hmono : Monotone clock)
    (n : Nat) (queuedTime : ℚ) (target : TimeVal) (pid : Int)
    (hsleep : ∀ t : ℚ, target = TimeVal.fin t →
      waitPos target (clock (n + 1)) = true →
      clock (n + 1) + (t - clock (n + 1)) ≤ clock (n + 2)) :
    (∀ t : ℚ, target = TimeVal.fin t →
      ∀ msg ∈ (workerScheduleRequest clock n queuedTime target pid).1,
        msg.type_ = "request_start" → t ≤ msg.info.workerStart) ∧
    (target = TimeVal.negInf →
      (workerScheduleRequest clock n queuedTime target pid).2 = false) ∧
    (∀ t : ℚ, target = TimeVal.fin t → t ≤ clock (n + 1) →
      (workerScheduleRequest clock n queuedTime target pid).2 = false) := by
  refine ⟨?_, ?_, ?_⟩
  · intro t ht msg hmsg htype
    subst ht
    simp only [workerScheduleRequest, List.mem_cons,
      List.not_mem_nil, or_false] at hmsg
    rcases hmsg with rfl | rfl | rfl
    · simp at htype
    · show t ≤ clock (n + 2)
      by_cases hw : waitPos (TimeVal.fin t) (clock (n + 1)) = true
      · have h1 := hsleep t rfl hw
        linarith
      · have h2 : ¬ (clock (n + 1) < t) := by
          simpa [waitPos] using hw
        have h3 : clock (n + 1) ≤ clock (n + 2) := hmono (by omega)
        linarith
    · simp at htype
  · intro h
    subst h
    rfl
  · intro t ht hle
    subst ht
    have h2 : ¬ (clock (n + 1) < t) := not_lt.mpr hle
    simp [workerScheduleRequest, waitPos, h2]

theorem c8_witness :
    (150 : ℚ) ≤
      (((workerScheduleRequest witnessClock 0 0 (TimeVal.fin 150) 0).1.get
        ⟨1, by norm_num [workerScheduleRequest]⟩).info.workerStart) := by
  have hsleep : ∀ t : ℚ, TimeVal.fin 150 = TimeVal.fin t →
      waitPos (TimeVal.fin 150) (witnessClock (0 + 1)) = true →
      witnessClock (0 + 1) + (t - witnessClock (0 + 1))
        ≤ witnessClock (0 + 2) := by
    intro t ht _
    injection ht with h
    subst h
    norm_num [witnessClock]
  have h := (c8_worker_start_not_early witnessClock witnessClock_mono 0 0
      (TimeVal.fin 150) 0 hsleep).1 150 rfl
  exact h _ (List.get_mem _ _ _) rfl

lemma Inv_init (loaderLen : Nat) : Inv (initState loaderLen) := by
  unfold Inv initState recvCount
  refine ⟨by simp, by simp, by simp, by simp, by simp, ?_⟩
  intro r hr
  simp at hr

lemma Inv_step {P : RunParams} {s s2 : SchedState} (hstep : Step P s s2)
    (hinv : Inv s) : Inv s2 := by
  cases hstep with
  | exhaust hactive hroom hstop =>
      exact hinv
  | enqueue hactive hroom hgo =>
      obtain ⟨hc, hq, hs, hp, hcomp, hb⟩ := hinv
      simp only [recvCount] at hc hq hs hp hcomp
      unfold Inv
      refine ⟨?_, ?_, ?_, ?_, ?_, ?_⟩
      · simp only [recvCount, Multiset.card_cons]
        push_cast
        omega
      · simp only [recvCount, Multiset.countP_cons]
        simp
        push_cast
        omega
      · simp only [recvCount, Multiset.countP_cons]
        simp
        push_cast
        omega
      · simp only [recvCount, Multiset.countP_cons]
        simp
        push_cast
        omega
      · simp only [recvCount, Multiset.countP_cons]
        simp
        push_cast
        omega
      · intro r hr
        rcases Multiset.mem_cons.mp hr with rfl | hr2
        · exact ⟨le_refl 0, by omega⟩
        · exact hb r hr2
  | workerDequeue hmem =>
      obtain ⟨hc, hq, hs, hp, hcomp, hb⟩ := hinv
      obtain ⟨m, hm⟩ : ∃ m, s.reqs = ((0 : Nat), (0 : Nat)) ::ₘ m :=
        ⟨_, (Multiset.cons_erase hmem).symm⟩
      simp only [recvCount, hm, Multiset.countP_cons, Multiset.card_cons]
        at hc hq hs hp hcomp
      simp at hc hq hs hp hcomp
      have hb2 := fun r hr => hb r (hm ▸ Multiset.mem_cons_of_mem hr)
      unfold Inv
      simp only [recvCount, hm, Multiset.erase_cons_head, Multiset.countP_cons,
        Multiset.card_cons]
      refine ⟨?_, ?_, ?_, ?_, ?_, ?_⟩
      · push_cast; omega
      · simp; push_cast; omega
      · simp; push_cast; omega
      · simp; push_cast; omega
      · simp; push_cast; omega
      · intro r hr
        rcases Multiset.mem_cons.mp hr with rfl | hr2
        · exact ⟨by omega, by omega⟩
        · exact hb2 r hr2
  | workerStart rcv hmem =>
      obtain ⟨hc, hq, hs, hp, hcomp, hb⟩ := hinv
      obtain ⟨m, hm⟩ : ∃ m, s.reqs = ((1 : Nat), rcv) ::ₘ m :=
        ⟨_, (Multiset.cons_erase hmem).symm⟩
      simp only [recvCount, hm, Multiset.countP_cons, Multiset.card_cons]
        at hc hq hs hp hcomp
      have hb2 := fun r hr => hb r (hm ▸ Multiset.mem_cons_of_mem hr)
      have hbm := hb ((1 : Nat), rcv) (hm ▸ Multiset.mem_cons_self _ _)
      unfold Inv
      simp only [recvCount, hm, Multiset.erase_cons_head, Multiset.countP_cons,
        Multiset.card_cons]
      refine ⟨?_, ?_, ?_, ?_, ?_, ?_⟩
      · push_cast at *; omega
      · push_cast at *; omega
      · push_cast at *; omega
      · push_cast at *; omega
      · push_cast at *; omega
      · intro r hr
        rcases Multiset.mem_cons.mp hr with rfl | hr2
        · simp at hbm
          exact ⟨by omega, by omega⟩
        · exact hb2 r hr2
  | workerComplete rcv hmem =>
      obtain ⟨hc, hq, hs, hp, hcomp, hb⟩ := hinv
      obtain ⟨m, hm⟩ : ∃ m, s.reqs = ((2 : Nat), rcv) ::ₘ m :=
        ⟨_, (Multiset.cons_erase hmem).symm⟩
      simp only [recvCount, hm, Multiset.countP_cons, Multiset.card_cons]
        at hc hq hs hp hcomp
      have hb2 := fun r hr => hb r (hm ▸ Multiset.mem_cons_of_mem hr)
      have hbm := hb ((2 : Nat), rcv) (hm ▸ Multiset.mem_cons_self _ _)
      unfold Inv
      simp only [recvCount, hm, Multiset.erase_cons_head, Multiset.countP_cons,
        Multiset.card_cons]
      refine ⟨?_, ?_, ?_, ?_, ?_, ?_⟩
      · push_cast at *; omega
      · push_cast at *; omega
      · push_cast at *; omega
      · push_cast at *; omega
      · push_cast at *; omega
      · intro r hr
        rcases Multiset.mem_cons.mp hr with rfl | hr2
        · simp at hbm
          exact ⟨by omega, by omega⟩
        · exact hb2 r hr2
  | receiveScheduled p hmem hlt =>
      obtain ⟨hc, hq, hs, hp, hcomp, hb⟩ := hinv
      obtain ⟨m, hm⟩ : ∃ m, s.reqs = (p, (0 : Nat)) ::ₘ m :=
        ⟨_, (Multiset.cons_erase hmem).symm⟩
      simp only [recvCount, hm, Multiset.countP_cons, Multiset.card_cons]
        at hc hq hs hp hcomp
      simp at hc hq hs hp hcomp
      have hb2 := fun r hr => hb r (hm ▸ Multiset.mem_cons_of_mem hr)
      have hbm := hb (p, (0 : Nat)) (hm ▸ Multiset.mem_cons_self _ _)
      unfold Inv
      simp only [recvCount, hm, Multiset.erase_cons_head, Multiset.countP_cons,
        Multiset.card_cons]
      refine ⟨?_, ?_, ?_, ?_, ?_, ?_⟩
      · push_cast; omega
      · simp; push_cast; omega
      · simp; push_cast; omega
      · simp; push_cast; omega
      · simp; push_cast; omega
      · intro r hr
        rcases Multiset.mem_cons.mp hr with rfl | hr2
        · simp at hbm
          exact ⟨by omega, by omega⟩
        · exact hb2 r hr2
  | receiveStart p hmem hlt =>
      obtain ⟨hc, hq, hs, hp, hcomp, hb⟩ := hinv
      obtain ⟨m, hm⟩ : ∃ m, s.reqs = (p, (1 : Nat)) ::ₘ m :=
        ⟨_, (Multiset.cons_erase hmem).symm⟩
      simp only [recvCount, hm, Multiset.countP_cons, Multiset.card_cons]
        at hc hq hs hp hcomp
      simp at hc hq hs hp hcomp
      have hb2 := fun r hr => hb r (hm ▸ Multiset.mem_cons_of_mem hr)
      have hbm := hb (p, (1 : Nat)) (hm ▸ Multiset.mem_cons_self _ _)
      unfold Inv
      simp only [recvCount, hm, Multiset.erase_cons_head, Multiset.countP_cons,
        Multiset.card_cons]
      refine ⟨?_, ?_, ?_, ?_, ?_, ?_⟩
      · push_cast; omega
      · simp; push_cast; omega
      · simp; push_cast; omega
      · simp; push_cast; omega
      · simp; push_cast; omega
      · intro r hr
        rcases Multiset.mem_cons.mp hr with rfl | hr2
        · simp at hbm
          exact ⟨by omega, by omega⟩
        · exact hb2 r hr2
  | receiveComplete p hmem hlt =>
      obtain ⟨hc, hq, hs, hp, hcomp, hb⟩ := hinv
      obtain ⟨m, hm⟩ : ∃ m, s.reqs = (p, (2 : Nat)) ::ₘ m :=
        ⟨_, (Multiset.cons_erase hmem).symm⟩
      simp only [recvCount, hm, Multiset.countP_cons, Multiset.card_cons]
        at hc hq hs hp hcomp
      simp at hc hq hs hp hcomp
      have hb2 := fun r hr => hb r (hm ▸ Multiset.mem_cons_of_mem hr)
      have hbm := hb (p, (2 : Nat)) (hm ▸ Multiset.mem_cons_self _ _)
      unfold Inv
      simp only [recvCount, hm, Multiset.erase_cons_head, Multiset.countP_cons,
        Multiset.card_cons]
      refine ⟨?_, ?_, ?_, ?_, ?_, ?_⟩
      · push_cast; omega
      · simp; push_cast; omega
      · simp; push_cast; omega
      · simp; push_cast; omega
      · simp; push_cast; omega
      · intro r hr
        rcases Multiset.mem_cons.mp hr with rfl | hr2
        · simp at hbm
          exact ⟨by omega, by omega⟩
        · exact hb2 r hr2

lemma Inv_reach {P : RunParams} {loaderLen : Nat} {s : SchedState}
    (h : Reach P loaderLen s) : Inv s := by
  induction h with
  | refl => exact Inv_init loaderLen
  | tail hsteps hstep ih => exact Inv_step hstep ih

lemma card_eq_recv_sum (m0 : Multiset (Nat × Nat)) :
    (∀ r ∈ m0, r.2 ≤ 3) →
      Multiset.card m0
        = Multiset.countP (fun r : Nat × Nat => r.2 = 0) m0
          + Multiset.countP (fun r : Nat × Nat => r.2 = 1) m0
          + Multiset.countP (fun r : Nat × Nat => r.2 = 2) m0
          + Multiset.countP (fun r : Nat × Nat => r.2 = 3) m0 := by
  induction m0 using Multiset.induction_on with
  | empty => intro _; simp
  | cons a s ih =>
      intro hb
      have ha : a.2 ≤ 3 := hb a (Multiset.mem_cons_self a s)
      have hs : ∀ r ∈ s, r.2 ≤ 3 :=
        fun r hr => hb r (Multiset.mem_cons_of_mem hr)
      rw [Multiset.card_cons, Multiset.countP_cons, Multiset.countP_cons,
        Multiset.countP_cons, Multiset.countP_cons, ih hs]
      have hcases : a.2 = 0 ∨ a.2 = 1 ∨ a.2 = 2 ∨ a.2 = 3 := by omega
      rcases hcases with h | h | h | h <;> simp [h]
      all_goals omega

/-- C2: at every reachable point of a scheduler run, and in particular at
every yielded SchedulerResult, the RunInfo counters satisfy
created == queued + scheduled + processing + completed; the step relation
itself encodes that each enqueue increments created_requests and
queued_requests together and that each received response applies exactly
one of the three ±1 transfers. -/
theorem c2_counter_invariant (P : RunParams) (loaderLen : Nat)
    (s : SchedState) (h : Reach P loaderLen s) :
    s.createdRequests = s.queuedRequests + s.scheduledRequests
      + s.processingRequests + s.completedRequests := by
  obtain ⟨hc, hq, hs, hp, hcomp, hb⟩ := Inv_reach h
  have hcard := card_eq_recv_sum s.reqs
    (fun r hr => le_trans (hb r hr).1 (hb r hr).2)
  simp only [recvCount] at hq hs hp hcomp
  rw [hc, hq, hs, hp, hcomp]
  push_cast
  omega

theorem c2_witness :
    (initState 5).createdRequests
      = (initState 5).queuedRequests + (initState 5).scheduledRequests
        + (initState 5).processingRequests + (initState 5).completedRequests :=
  c2_counter_invariant sampleParams 5 (initState 5) Relation.ReflTransGen.refl

/-- C3: whenever a reachable state satisfies the break condition of
the main loop (the requests iterator is exhausted and completed_requests ≥
created_requests, scheduler.py lines 292-299) — the condition under which
run_complete is emitted — the counters satisfy completed == created and
queued == scheduled == processing == 0. -/
theorem c3_run_complete_drained (P : RunParams) (loaderLen : Nat)
    (s : SchedState) (h : Reach P loaderLen s) (hexit : exitCond s) :
    s.completedRequests = s.createdRequests ∧ s.queuedRequests = 0 ∧
    s.scheduledRequests = 0 ∧ s.processingRequests = 0 := by
  obtain ⟨hc, hq, hs, hp, hcomp, hb⟩ := Inv_reach h
  have hcard := card_eq_recv_sum s.reqs
    (fun r hr => le_trans (hb r hr).1 (hb r hr).2)
  have hle : Multiset.countP (fun r : Nat × Nat => r.2 = 3) s.reqs
      ≤ Multiset.card s.reqs := Multiset.countP_le_card _ _
  obtain ⟨hex, hge⟩ := hexit
  simp only [recvCount] at hq hs hp hcomp
  refine ⟨?_, ?_, ?_, ?_⟩ <;> omega

theorem c3_witness :
    ({ createdRequests := 0, queuedRequests := 0, scheduledRequests := 0,
       processingRequests := 0, completedRequests := 0, reqs := 0,
       loaderRemaining := 0, timesIdx := 1,
       exhausted := true } : SchedState).completedRequests
      = ({ createdRequests := 0, queuedRequests := 0, scheduledRequests := 0,
           processingRequests := 0, completedRequests := 0, reqs := 0,
           loaderRemaining := 0, timesIdx := 1,
           exhausted := true } : SchedState).createdRequests ∧
    ({ createdRequests := 0, queuedRequests := 0, scheduledRequests := 0,
       processingRequests := 0, completedRequests := 0, reqs := 0,
       loaderRemaining := 0, timesIdx := 1,
       exhausted := true } : SchedState).queuedRequests = 0 ∧
    ({ createdRequests := 0, queuedRequests := 0, scheduledRequests := 0,
       processingRequests := 0, completedRequests := 0, reqs := 0,
       loaderRemaining := 0, timesIdx := 1,
       exhausted := true } : SchedState).scheduledRequests = 0 ∧
    ({ createdRequests := 0, queuedRequests := 0, scheduledRequests := 0,
       processingRequests := 0, completedRequests := 0, reqs := 0,
       loaderRemaining := 0, timesIdx := 1,
       exhausted := true } : SchedState).processingRequests = 0 :=
  c3_run_complete_drained sampleParams 0 _
    (Relation.ReflTransGen.single (Step.exhaust rfl (by decide) (by decide)))
    ⟨rfl, le_refl 0⟩

/-- C1 (violated by the code): with max_number = 2 (so end_number = 2) and
a loader of 3 requests, a run can enqueue and complete 3 requests, because
the producer gate at scheduler.py line 307 compares the transient
queued_requests counter — which request_scheduled responses decrement —
against end_number instead of comparing created_requests.  The trace below
follows a real schedule: the request_scheduled response of the first request is
consumed before the later enqueue attempts of the producer, so the gate sees
queued_requests below end_number and admits a third request; the run then
drains and reaches the break condition with three request_complete events
consumed (completed_requests = 3), where the claim demands exactly 2. -/
theorem c1_overadmission_trace :
    sampleParams.endNumber = some 2 ∧
    ∃ s, Reach sampleParams 3 s ∧ exitCond s ∧ s.completedRequests = 3 := by
  refine ⟨rfl, ?_⟩
  have h0 : Reach sampleParams 3 (initState 3) := Relation.ReflTransGen.refl
  have h1 := Relation.ReflTransGen.tail h0
    (Step.enqueue (by decide) (by decide) (by decide))
  have h2 := Relation.ReflTransGen.tail h1 (Step.workerDequeue (by decide))
  have h3 := Relation.ReflTransGen.tail h2
    (Step.receiveScheduled 1 (by decide) (by decide))
  have h4 := Relation.ReflTransGen.tail h3
    (Step.enqueue (by decide) (by decide) (by decide))
  have h5 := Relation.ReflTransGen.tail h4
    (Step.enqueue (by decide) (by decide) (by decide))
  have h6 := Relation.ReflTransGen.tail h5
    (Step.exhaust (by decide) (by decide) (by decide))
  have h7 := Relation.ReflTransGen.tail h6
    (Step.workerStart 1 (by decide))
  have h8 := Relation.ReflTransGen.tail h7
    (Step.receiveStart 2 (by decide) (by decide))
  have h9 := Relation.ReflTransGen.tail h8
    (Step.workerComplete 2 (by decide))
  have h10 := Relation.ReflTransGen.tail h9
    (Step.receiveComplete 3 (by decide) (by decide))
  have h11 := Relation.ReflTransGen.tail h10 (Step.workerDequeue (by decide))
  have h12 := Relation.ReflTransGen.tail h11
    (Step.receiveScheduled 1 (by decide) (by decide))
  have h13 := Relation.ReflTransGen.tail h12
    (Step.workerStart 1 (by decide))
  have h14 := Relation.ReflTransGen.tail h13
    (Step.receiveStart 2 (by decide) (by decide))
  have h15 := Relation.ReflTransGen.tail h14
    (Step.workerComplete 2 (by decide))
  have h16 := Relation.ReflTransGen.tail h15
    (Step.receiveComplete 3 (by decide) (by decide))
  have h17 := Relation.ReflTransGen.tail h16 (Step.workerDequeue (by decide))
  have h18 := Relation.ReflTransGen.tail h17
    (Step.receiveScheduled 1 (by decide) (by decide))
  have h19 := Relation.ReflTransGen.tail h18
    (Step.workerStart 1 (by decide))
  have h20 := Relation.ReflTransGen.tail h19
    (Step.receiveStart 2 (by decide) (by decide))
  have h21 := Relation.ReflTransGen.tail h20
    (Step.workerComplete 2 (by decide))
  have h22 := Relation.ReflTransGen.tail h21
    (Step.receiveComplete 3 (by decide) (by decide))
  exact ⟨_, h22, ⟨by decide, by decide⟩, by decide⟩
